import Mathlib

/-!
Verification of the mazette asset-management script (src/mazette.py).

The script's pure logic is embedded shallowly: file and network effects become
explicit state passing over association-list file systems, SHA-256 is
implemented over Nat with arithmetic modulo 2^32, and Python exceptions become
an Except error type. Definitions follow the source functions; external
libraries (semver, fnmatch, tarfile) enter as parameters of the functions that
call them.
-/

set_option maxRecDepth 20000

namespace Mazette

/-! ## SHA-256 (hashlib.sha256, over byte lists) -/

/-- 2^32, the modulus for 32-bit arithmetic in SHA-256. -/
def pow32 : Nat := 4294967296

/-- Reduce modulo 2^32. -/
def m32 (x : Nat) : Nat := x % pow32

/-- Rotate a 32-bit word right by n bits. -/
def rotr (n x : Nat) : Nat := m32 ((x >>> n) ||| (x <<< (32 - n)))

/-- The 64 SHA-256 round constants (FIPS 180-4, written in decimal). -/
def shaK : List Nat :=
  [1116352408, 1899447441, 3049323471, 3921009573, 961987163,
   1508970993, 2453635748, 2870763221, 3624381080, 310598401,
   607225278, 1426881987, 1925078388, 2162078206, 2614888103,
   3248222580, 3835390401, 4022224774, 264347078, 604807628,
   770255983, 1249150122, 1555081692, 1996064986, 2554220882,
   2821834349, 2952996808, 3210313671, 3336571891, 3584528711,
   113926993, 338241895, 666307205, 773529912, 1294757372,
   1396182291, 1695183700, 1986661051, 2177026350, 2456956037,
   2730485921, 2820302411, 3259730800, 3345764771, 3516065817,
   3600352804, 4094571909, 275423344, 430227734, 506948616,
   659060556, 883997877, 958139571, 1322822218, 1537002063,
   1747873779, 1955562222, 2024104815, 2227730452, 2361852424,
   2428436474, 2756734187, 3204031479, 3329325298]

/-- The SHA-256 initial hash state (FIPS 180-4, written in decimal). -/
def shaH0 : List Nat :=
  [1779033703, 3144134277, 1013904242,
   2773480762, 1359893119, 2600822924,
   528734635, 1541459225]

/-- Message-schedule small sigma 0. -/
def ssig0 (x : Nat) : Nat := (rotr 7 x) ^^^ (rotr 18 x) ^^^ (x >>> 3)

/-- Message-schedule small sigma 1. -/
def ssig1 (x : Nat) : Nat := (rotr 17 x) ^^^ (rotr 19 x) ^^^ (x >>> 10)

/-- Extend a 16-word block to the 64-word message schedule (n = words to add). -/
def extendSchedule : Nat → List Nat → List Nat
  | 0, w => w
  | n + 1, w =>
      let len := w.length
      let nw := m32 (ssig1 (w.getD (len - 2) 0) + w.getD (len - 7) 0 +
                     ssig0 (w.getD (len - 15) 0) + w.getD (len - 16) 0)
      extendSchedule n (w ++ [nw])

/-- One SHA-256 compression round: state [a,b,c,d,e,f,g,h] with (K_i, W_i). -/
def shaStep (st : List Nat) (kw : Nat × Nat) : List Nat :=
  match st with
  | [a, b, c, d, e, f, g, h] =>
      let S1 := (rotr 6 e) ^^^ (rotr 11 e) ^^^ (rotr 25 e)
      let ch := (e &&& f) ^^^ ((e ^^^ 4294967295) &&& g)
      let temp1 := m32 (h + S1 + ch + kw.1 + kw.2)
      let S0 := (rotr 2 a) ^^^ (rotr 13 a) ^^^ (rotr 22 a)
      let maj := (a &&& b) ^^^ (a &&& c) ^^^ (b &&& c)
      let temp2 := m32 (S0 + maj)
      [m32 (temp1 + temp2), a, b, c, m32 (d + temp1), e, f, g]
  | other => other

/-- Compress one 16-word block into the running hash state. -/
def shaCompress (hs : List Nat) (block : List Nat) : List Nat :=
  let w := extendSchedule 48 block
  let st := (shaK.zip w).foldl shaStep hs
  List.zipWith (fun x y => m32 (x + y)) hs st

/-- Split a list into chunks of size n (n > 0 expected); fuel bounds recursion. -/
def chunksAux (n : Nat) : Nat → List Nat → List (List Nat)
  | _, [] => []
  | 0, _ => []
  | fuel + 1, l => l.take n :: chunksAux n fuel (l.drop n)

/-- Split a list into chunks of size n (n > 0 expected). -/
def chunks (n : Nat) (l : List Nat) : List (List Nat) := chunksAux n l.length l

/-- Big-endian bytes of a number, w bytes wide. -/
def beBytes (w : Nat) (x : Nat) : List Nat :=
  (List.range w).map (fun i => (x >>> (8 * (w - 1 - i))) &&& 255)

/-- SHA-256 padding of a byte string. -/
def shaPad (msg : List Nat) : List Nat :=
  let L := msg.length
  let k := (119 - L % 64) % 64
  msg ++ [128] ++ List.replicate k 0 ++ beBytes 8 (8 * L)

/-- Convert 4-byte groups (big-endian) to 32-bit words. -/
def bytesToWords (bs : List Nat) : List Nat :=
  (chunks 4 bs).map (fun c => c.foldl (fun acc b => acc * 256 + b) 0)

/-- SHA-256 digest of a byte string, as 32 bytes. -/
def sha256 (msg : List Nat) : List Nat :=
  let blocks := chunks 16 (bytesToWords (shaPad msg))
  let hs := blocks.foldl shaCompress shaH0
  hs.flatMap (beBytes 4)

/-- Lowercase hex characters. -/
def hexChars : List Char := "0123456789abcdef".toList

/-- A byte as two lowercase hex characters. -/
def hexByte (b : Nat) : List Char :=
  [hexChars.getD (b / 16) '0', hexChars.getD (b % 16) '0']

/-- SHA-256 digest as a lowercase hex string, as hexdigest() returns. -/
def sha256hex (msg : List Nat) : String :=
  String.mk ((sha256 msg).flatMap hexByte)

/-- UTF-8 encoding of one character. -/
def utf8Char (c : Char) : List Nat :=
  let n := c.toNat
  if n < 128 then [n]
  else if n < 2048 then [192 ||| (n >>> 6), 128 ||| (n &&& 63)]
  else if n < 65536 then
    [224 ||| (n >>> 12), 128 ||| ((n >>> 6) &&& 63), 128 ||| (n &&& 63)]
  else
    [240 ||| (n >>> 18), 128 ||| ((n >>> 12) &&& 63), 128 ||| ((n >>> 6) &&& 63),
     128 ||| (n &&& 63)]

/-- UTF-8 encoding of a string, as str.encode() produces. -/
def utf8Encode (s : String) : List Nat := s.toList.flatMap utf8Char

/-! ## Errors

Python exceptions raised on the modelled paths. AssetException carries its
message; requests' HTTPError (raise_for_status) and transport errors while
streaming a body are separate constructors; KeyError models a missing dict
key. -/

/-- Exceptions raised by the modelled code paths. -/
inductive Err
  | assetError (msg : String)
  | httpError
  | transportError
  | keyError (k : String)
deriving DecidableEq

/-- How an error renders inside a wrapping f-string message. -/
def errStr : Err → String
  | .assetError m => m
  | .httpError => "HTTPError"
  | .transportError => "ConnectionError"
  | .keyError k => "KeyError: \x27" ++ k ++ "\x27"

/-! ## Content cache (cache_file_path, download_to_cache, ...) -/

/-- The cache root directory, user_cache_dir("mazette"), as a fixed prefix. -/
def CACHE_ROOT : String := "/home/user/.cache/mazette"

/-- An on-disk tree: an association list from path to byte content. -/
abbrev FS := List (String × List Nat)

/-- Create or truncate a file, as open(p, "wb") followed by a write. -/
def fsWrite (fs : FS) (p : String) (v : List Nat) : FS :=
  (p, v) :: fs.filter (fun e => e.1 ≠ p)

/-- unlink(missing_ok=True): remove a file if present. -/
def fsDelete (fs : FS) (p : String) : FS := fs.filter (fun e => e.1 ≠ p)

/-- Read a file's bytes, none when the path does not exist. -/
def fsRead (fs : FS) (p : String) : Option (List Nat) := fs.lookup p

/-- Machine state threaded through the cache: the file tree plus a counter of
HTTP requests issued (requests.get calls). -/
structure St where
  fs : FS
  downloads : Nat
deriving DecidableEq

/-- Outcome of an HTTP GET: error status (raise_for_status fires), transport
failure after part of the body streamed, or the complete body. -/
inductive NetResult
  | httpError
  | partialBody (received : List Nat)
  | ok (body : List Nat)

/-- The network, as a map from URL to response outcome. -/
abbrev Net := String → NetResult

/-- calc_checksum: SHA-256 hex digest of a stream's content (the source reads
chunk by chunk and updates one hash object, which hashes the concatenation). -/
def calc_checksum (content : List Nat) : String := sha256hex content

/-- Python str.split(sep) for a one-character separator, over characters:
groups between separators, keeping empty groups. -/
def splitChar (sep : Char) : List Char → List (List Char)
  | [] => [[]]
  | c :: cs =>
      match splitChar sep cs with
      | [] => [[]]
      | g :: gs => if c = sep then [] :: g :: gs else (c :: g) :: gs

/-- Python str.split(sep) for a one-character separator. -/
def pySplit (s : String) (sep : Char) : List String :=
  (splitChar sep s.toList).map String.mk

/-- Python str.replace(old, new) over characters: scan left to right, replacing
non-overlapping occurrences; fuel bounds the recursion by the input length. -/
def replaceAux (old new : List Char) : Nat → List Char → List Char
  | _, [] => []
  | 0, l => l
  | fuel + 1, c :: cs =>
      if (c :: cs).take old.length = old then
        new ++ replaceAux old new fuel ((c :: cs).drop old.length)
      else c :: replaceAux old new fuel cs

/-- Python str.replace(old, new) for a nonempty old. -/
def pyReplace (s old new : String) : String :=
  String.mk (replaceAux old.toList new.toList s.toList.length s.toList)

/-- cache_file_path(url): CACHE_ROOT / (sha256(url) ++ "-" ++ asset name), where
the asset name is the last URL segment, except that GitHub-generated
zipball/tarball URLs use "repo-zipball" or "repo-tarball" instead. URLs with
fewer than three slash-separated segments are malformed. -/
def cache_file_path (url : String) : Except Err String :=
  let url_hash := sha256hex (utf8Encode url)
  let parsed := pySplit url '/'
  if parsed.length < 3 then
    .error (.assetError ("Malformed download URL: " ++ url))
  else
    let rev := parsed.reverse
    let asset_name :=
      if rev.getD 1 "" = "zipball" ∨ rev.getD 1 "" = "tarball" then
        rev.getD 2 "" ++ "-" ++ rev.getD 1 ""
      else rev.getD 0 ""
    .ok (CACHE_ROOT ++ "/" ++ url_hash ++ "-" ++ asset_name)

/-- checksum_file_path(url): the blob path with ".sha256" appended (the source
forms parent / (name + ".sha256"), which is the same string). -/
def checksum_file_path (url : String) : Except Err String :=
  (cache_file_path url).map (fun p => p ++ ".sha256")

/-- get_cached_url(url): the blob path when it exists on disk, else none. -/
def get_cached_url (fs : FS) (url : String) : Except Err (Option String) :=
  (cache_file_path url).map (fun p => if (fsRead fs p).isSome then some p else none)

/-- download_to_cache(url): return the cached blob path if it exists; otherwise
GET the URL, stream the body into the blob path, hash the written file and
store the .sha256 sidecar. raise_for_status fires before the blob file is
opened, so an HTTP error writes nothing; a transport failure while streaming
leaves the partially written blob behind (the file is closed, not removed). -/
def download_to_cache (net : Net) (st : St) (url : String) :
    Except Err String × St :=
  match cache_file_path url with
  | .error e => (.error e, st)
  | .ok path =>
    if (fsRead st.fs path).isSome then (.ok path, st)
    else
      let st1 : St := { st with downloads := st.downloads + 1 }
      match net url with
      | .httpError => (.error .httpError, st1)
      | .partialBody received =>
          (.error .transportError, { st1 with fs := fsWrite st1.fs path received })
      | .ok body =>
          let fs1 := fsWrite st1.fs path body
          let checksum := calc_checksum ((fsRead fs1 path).getD [])
          let fs2 := fsWrite fs1 (path ++ ".sha256") (utf8Encode checksum)
          (.ok path, { st1 with fs := fs2 })

/-- download_to_cache_and_verify(url, expected): fetch via the cache, rehash the
blob, and on mismatch unlink blob and sidecar and raise the hash-mismatch
error carrying the URL and both digests. -/
def download_to_cache_and_verify (net : Net) (st : St) (url expected_checksum : String) :
    Except Err String × St :=
  match download_to_cache net st url with
  | (.error e, st1) => (.error e, st1)
  | (.ok cached_file, st1) =>
    let checksum_file := cached_file ++ ".sha256"
    let computed_checksum := calc_checksum ((fsRead st1.fs cached_file).getD [])
    if computed_checksum ≠ expected_checksum then
      (.error (.assetError ("Hash mismatch for URL " ++ url ++ ": computed \x27" ++
          computed_checksum ++ "\x27, expected \x27" ++ expected_checksum ++ "\x27")),
       { st1 with fs := fsDelete (fsDelete st1.fs cached_file) checksum_file })
    else (.ok cached_file, st1)

/-! ## Version resolver (get_latest_release, get_download_url) -/

/-- One asset of a release, as in the GitHub API response. -/
structure ReleaseAsset where
  name : String
  browser_download_url : String
deriving DecidableEq

/-- A release object from the GitHub releases API (the fields the script uses). -/
structure Release where
  tag_name : String
  prerelease : Bool
  assets : List ReleaseAsset := []
  tarball_url : String := ""
  zipball_url : String := ""
deriving DecidableEq

/-- tag.lstrip("v"): remove every leading letter v. -/
def lstrip_v (s : String) : String := String.mk (s.toList.dropWhile (fun c => c = 'v'))

/-- The semver library surface used by the resolver: VersionInfo.parse (partial)
and VersionInfo.match against a range expression, over an ordered version
type V. -/
structure SemverLib (V : Type) where
  parse : String → Option V
  vmatch : V → String → Bool

/-- Python max(list, key=...) over a nonempty list, as best followed by the
rest: the current best is kept unless a strictly greater key appears, so the
first maximum wins. -/
def pymax_by_snd {α β : Type} [LinearOrder β] (best : α × β) :
    List (α × β) → α × β
  | [] => best
  | x :: xs => pymax_by_snd (if best.2 < x.2 then x else best) xs

/-- The filtering loop of get_latest_release: strip leading v from each tag,
skip tags that do not parse as semver, skip prereleases, skip versions not
matching the range; keep (release, version) pairs in release order. -/
def matching_releases {V : Type} (lib : SemverLib V) (releases : List Release)
    (semver_range : String) : List (Release × V) :=
  releases.filterMap (fun release =>
    match lib.parse (lstrip_v release.tag_name) with
    | none => none
    | some version =>
      if release.prerelease then none
      else if ¬ lib.vmatch version semver_range then none
      else some (release, version))

/-- get_latest_release(repo, semver_range), with the HTTP fetch abstracted into
the given releases list: the release with the maximum parsed version among the
matching ones, or the no-matching-release error. -/
def get_latest_release {V : Type} [LinearOrder V] (lib : SemverLib V)
    (releases : List Release) (repo semver_range : String) : Except Err Release :=
  match matching_releases lib releases semver_range with
  | [] => .error (.assetError ("No releases match version requirement " ++
      semver_range ++ " for repo \x27" ++ repo ++ "\x27"))
  | m :: ms => .ok (pymax_by_snd m ms).1

/-- name.format(version=version): substitute the version for each "\x7bversion\x7d"
placeholder (the names the script formats contain no other brace fields). -/
def format_version (name version : String) : String :=
  pyReplace name "\x7bversion\x7d" version

/-- get_download_url(release, name): hosting tarball/zipball sentinels map to the
release's archive URLs; otherwise substitute the v-stripped tag into the name
and find the asset with exactly that name. -/
def get_download_url (release : Release) (name : String) : Except Err String :=
  if name = "!tarball" then .ok release.tarball_url
  else if name = "!zipball" then .ok release.zipball_url
  else
    let version := lstrip_v release.tag_name
    let expected_name := format_version name version
    match release.assets.find? (fun asset => asset.name = expected_name) with
    | some asset => .ok asset.browser_download_url
    | none => .error (.assetError ("Could not find asset \x27" ++ name ++ "\x27"))

/-! ## Glob member filtering (filter_files) -/

/-- The yield sequence of the filter_files generator: for each glob in declared
order, yield every remaining file the glob matches (fnmatch.filter), then drop
those files from the candidate set. fnm abstracts fnmatch matching. -/
def filter_files_go (fnm : String → String → Bool) :
    List String → List String → List String
  | _, [] => []
  | files, glob :: globs =>
      files.filter (fun f => fnm f glob) ++
      filter_files_go fnm (files.filter (fun f => ¬ fnm f glob)) globs

/-- filter_files(files, globs): the input collection becomes a set (set(files)),
then globs are processed in order; when nothing at all matched, the
no-matches error is raised instead. -/
def filter_files (fnm : String → String → Bool) (files globs : List String) :
    Except Err (List String) :=
  let yielded := filter_files_go fnm files.dedup globs
  if yielded.isEmpty then
    .error (.assetError "Globs did not match any files in the archive")
  else .ok yielded

/-! ## Lock consistency gate (write_lock, check_lock_stale, load_lock)

The configuration read by read_config is a TOML document, handled by the
source as plain Python values; json.dumps serializes it. Values are modelled
by a JSON tree whose objects keep insertion order, exactly as Python dicts
do. The strings appearing in configurations contain no characters that
json.dumps would escape, so string serialization is plain quoting. -/

/-- A Python value as produced by the TOML/JSON parsers (insertion-ordered
dicts). -/
inductive Json
  | null
  | bool (b : Bool)
  | num (n : Int)
  | str (s : String)
  | arr (xs : List Json)
  | obj (kvs : List (String × Json))

mutual

/-- Decidable equality of JSON values. -/
def jsonDecEq : (a b : Json) → Decidable (a = b)
  | .null, .null => isTrue rfl
  | .null, .bool _ | .null, .num _ | .null, .str _ | .null, .arr _
  | .null, .obj _ => isFalse (by intro h; exact Json.noConfusion h)
  | .bool _, .null | .bool _, .num _ | .bool _, .str _ | .bool _, .arr _
  | .bool _, .obj _ => isFalse (by intro h; exact Json.noConfusion h)
  | .num _, .null | .num _, .bool _ | .num _, .str _ | .num _, .arr _
  | .num _, .obj _ => isFalse (by intro h; exact Json.noConfusion h)
  | .str _, .null | .str _, .bool _ | .str _, .num _ | .str _, .arr _
  | .str _, .obj _ => isFalse (by intro h; exact Json.noConfusion h)
  | .arr _, .null | .arr _, .bool _ | .arr _, .num _ | .arr _, .str _
  | .arr _, .obj _ => isFalse (by intro h; exact Json.noConfusion h)
  | .obj _, .null | .obj _, .bool _ | .obj _, .num _ | .obj _, .str _
  | .obj _, .arr _ => isFalse (by intro h; exact Json.noConfusion h)
  | .bool a, .bool b =>
    match decEq a b with
    | isTrue h => isTrue (by rw [h])
    | isFalse h => isFalse (by intro hh; injection hh; contradiction)
  | .num a, .num b =>
    match decEq a b with
    | isTrue h => isTrue (by rw [h])
    | isFalse h => isFalse (by intro hh; injection hh; contradiction)
  | .str a, .str b =>
    match decEq a b with
    | isTrue h => isTrue (by rw [h])
    | isFalse h => isFalse (by intro hh; injection hh; contradiction)
  | .arr a, .arr b =>
    match jsonDecEqList a b with
    | isTrue h => isTrue (by rw [h])
    | isFalse h => isFalse (by intro hh; injection hh; contradiction)
  | .obj a, .obj b =>
    match jsonDecEqObj a b with
    | isTrue h => isTrue (by rw [h])
    | isFalse h => isFalse (by intro hh; injection hh; contradiction)

/-- Decidable equality of JSON arrays. -/
def jsonDecEqList : (a b : List Json) → Decidable (a = b)
  | [], [] => isTrue rfl
  | [], _ :: _ => isFalse (by intro h; exact List.noConfusion h)
  | _ :: _, [] => isFalse (by intro h; exact List.noConfusion h)
  | x :: xs, y :: ys =>
    match jsonDecEq x y with
    | isFalse h => isFalse (by intro hh; injection hh; contradiction)
    | isTrue h1 =>
      match jsonDecEqList xs ys with
      | isTrue h2 => isTrue (by rw [h1, h2])
      | isFalse h => isFalse (by intro hh; injection hh; contradiction)

/-- Decidable equality of JSON object entry lists. -/
def jsonDecEqObj : (a b : List (String × Json)) → Decidable (a = b)
  | [], [] => isTrue rfl
  | [], _ :: _ => isFalse (by intro h; exact List.noConfusion h)
  | _ :: _, [] => isFalse (by intro h; exact List.noConfusion h)
  | (k1, v1) :: xs, (k2, v2) :: ys =>
    match decEq k1 k2 with
    | isFalse h => isFalse (by
        intro hh; injection hh with h1 h2
        exact h (congrArg Prod.fst h1))
    | isTrue hk =>
      match jsonDecEq v1 v2 with
      | isFalse h => isFalse (by
          intro hh; injection hh with h1 h2
          exact h (congrArg Prod.snd h1))
      | isTrue hv =>
        match jsonDecEqObj xs ys with
        | isTrue ht => isTrue (by rw [hk, hv, ht])
        | isFalse h => isFalse (by intro hh; injection hh; contradiction)

end

instance : DecidableEq Json := jsonDecEq

mutual

/-- json.dumps with its default separators; dict entries appear in insertion
order (sort_keys is not passed). -/
def dumps : Json → String
  | .null => "null"
  | .bool b => if b then "true" else "false"
  | .num n => toString n
  | .str s => "\x22" ++ s ++ "\x22"
  | .arr xs => "[" ++ dumpsList xs ++ "]"
  | .obj kvs => "\x7b" ++ dumpsObj kvs ++ "\x7d"

/-- Comma-joined serialization of an array's elements. -/
def dumpsList : List Json → String
  | [] => ""
  | [x] => dumps x
  | x :: y :: xs => dumps x ++ ", " ++ dumpsList (y :: xs)

/-- Comma-joined serialization of an object's key/value pairs, in order. -/
def dumpsObj : List (String × Json) → String
  | [] => ""
  | [(k, v)] => "\x22" ++ k ++ "\x22" ++ ": " ++ dumps v
  | (k, v) :: p :: kvs =>
      "\x22" ++ k ++ "\x22" ++ ": " ++ dumps v ++ ", " ++ dumpsObj (p :: kvs)

end

/-- hashlib.sha256(json.dumps(config).encode()).hexdigest(): the fingerprint
write_lock stamps into the lock and check_lock_stale recomputes. -/
def config_fingerprint (config : Json) : String :=
  sha256hex (utf8Encode (dumps config))

/-- Python dict assignment d[k] = v on an insertion-ordered association list:
replace in place when the key exists, append otherwise. -/
def objSet (kvs : List (String × Json)) (k : String) (v : Json) :
    List (String × Json) :=
  if kvs.any (fun e => e.1 = k) then
    kvs.map (fun e => if e.1 = k then (k, v) else e)
  else kvs ++ [(k, v)]

/-- write_lock(lock_data): stamp lock_data with the current configuration's
fingerprint under "config_checksum"; the result is the JSON object written to
mazette.lock. -/
def write_lock (config : Json) (lock_data : List (String × Json)) :
    List (String × Json) :=
  objSet lock_data "config_checksum" (.str (config_fingerprint config))

/-- check_lock_stale(lock): recompute the current configuration's fingerprint
and compare it with lock["config_checksum"] (KeyError when absent). -/
def check_lock_stale (config : Json) (lock : List (String × Json)) :
    Except Err Unit :=
  match lock.lookup "config_checksum" with
  | none => .error (.keyError "config_checksum")
  | some stored =>
    if Json.str (config_fingerprint config) ≠ stored then
      .error (.assetError ("The asset list and the mazette.lock file are not in"
        ++ " sync. This can be fixed by running the \x27lock\x27 command."))
    else .ok ()

/-- load_lock(check): read mazette.lock (none models a missing or unreadable
file) and, when check is set, run the staleness check; any exception is
wrapped in the could-not-load error. -/
def load_lock (config : Json) (file : Option (List (String × Json)))
    (check : Bool) : Except Err (List (String × Json)) :=
  match file with
  | none => .error (.assetError "Could not load lock file \x27mazette.lock\x27")
  | some lock =>
    if check then
      match check_lock_stale config lock with
      | .error e => .error (.assetError ("Could not load lock file"
          ++ " \x27mazette.lock\x27: " ++ errStr e))
      | .ok _ => .ok lock
    else .ok lock

/-! ## Installer (chmod_exec, install_asset) -/

/-- Extract options of a lock entry after dataclass normalization. -/
structure ExtractOpts where
  globs : List String
  filetype : Option String := none
  flatten : Bool := false
deriving DecidableEq

/-- An Asset lock entry after __post_init__ normalization; extract = False
becomes none, an extract table becomes some ExtractOpts. -/
structure Asset where
  repo : String
  download_url : String
  version : String
  destination : String
  checksum : String
  executable : Bool := false
  extract : Option ExtractOpts := none
deriving DecidableEq

/-- The working-tree file system: path to (content bytes, permission mode). -/
abbrev DestFS := List (String × (List Nat × Nat))

/-- Create or replace a file in the working tree. -/
def destWrite (fs : DestFS) (p : String) (v : List Nat × Nat) : DestFS :=
  (p, v) :: fs.filter (fun e => e.1 ≠ p)

/-- Read a working-tree file. -/
def destLookup (fs : DestFS) (p : String) : Option (List Nat × Nat) := fs.lookup p

/-- Whether path sits strictly below dir (its name extends dir ++ "/"). -/
def underDir (dir path : String) : Bool :=
  path.toList.take (dir.toList.length + 1) = dir.toList ++ ['/']

/-- Path.is_dir(): in a tree of regular files, p names a directory exactly when
some file lives strictly below it. -/
def isDir (fs : DestFS) (p : String) : Bool :=
  fs.any (fun e => underDir p e.1)

/-- Path.exists(): a file at p or a directory p. -/
def destExists (fs : DestFS) (p : String) : Bool :=
  (destLookup fs p).isSome || isDir fs p

/-- The destination removal step of install_asset: rmtree for a directory,
unlink for a file. -/
def removeDest (fs : DestFS) (p : String) : DestFS :=
  if isDir fs p then fs.filter (fun e => ¬ underDir p e.1)
  else fs.filter (fun e => e.1 ≠ p)

/-- chmod_exec(path): add the 0o111 execute bits to the file at path, or to
every file under the directory path. (The source raises when the path is
absent; install_asset only calls it on the file it just copied.) -/
def chmod_exec (fs : DestFS) (path : String) : DestFS :=
  if isDir fs path then
    fs.map (fun e => if underDir path e.1 then (e.1, (e.2.1, e.2.2 ||| 73)) else e)
  else
    match destLookup fs path with
    | some (content, mode) => destWrite fs path (content, mode ||| 73)
    | none => fs

/-- Permission mode 0o644 of a freshly written cache blob under the default
umask; shutil.copy2 propagates it to the destination copy. -/
def blobMode : Nat := 420

/-- extract_asset abstracted at the tarfile/zipfile boundary: from the archive
bytes, the destination and the options, the files it writes as
(path, (content, mode)) triples. -/
abbrev Extractor := List Nat → String → ExtractOpts → List (String × (List Nat × Nat))

/-- The platform entry install_asset works on: the requested platform's entry,
falling back to the "all" entry. -/
def chooseEntry (asset_dict : List (String × Asset)) (platform : String) :
    Option Asset :=
  match asset_dict.lookup platform with
  | some asset => some asset
  | none => asset_dict.lookup "all"

/-- The combined machine state install_asset sees: the download cache and the
working tree holding destinations. -/
structure InstallSt where
  cache : St
  dest : DestFS
deriving DecidableEq

/-- install_asset(name, platform, asset_dict): resolve the platform entry (with
the "all" fallback), fetch and verify the blob through the cache, remove any
prior destination, then either extract into the destination directory (the
executable flag is not consulted on this branch) or copy the blob to the
destination and, when executable is set, chmod_exec it. -/
def install_asset (extractor : Extractor) (net : Net) (ist : InstallSt)
    (platform : String) (asset_dict : List (String × Asset)) :
    Except Err Unit × InstallSt :=
  match chooseEntry asset_dict platform with
  | none => (.error (.assetError ("No entry for platform \x27" ++ platform ++
      "\x27 or \x27platform.all\x27")), ist)
  | some asset =>
    match download_to_cache_and_verify net ist.cache asset.download_url asset.checksum with
    | (.error e, st1) => (.error e, { ist with cache := st1 })
    | (.ok cached_file, st1) =>
      let dest0 := if destExists ist.dest asset.destination
        then removeDest ist.dest asset.destination else ist.dest
      match asset.extract with
      | some opts =>
          let written := extractor ((fsRead st1.fs cached_file).getD [])
            asset.destination opts
          let dest1 := written.foldl (fun fs e => destWrite fs e.1 e.2) dest0
          (.ok (), { cache := st1, dest := dest1 })
      | none =>
          let dest1 := destWrite dest0 asset.destination
            ((fsRead st1.fs cached_file).getD [], blobMode)
          let dest2 := if asset.executable then chmod_exec dest1 asset.destination
            else dest1
          (.ok (), { cache := st1, dest := dest2 })

/-- Decidable equality for Except results, to let witnesses evaluate by decide. -/
instance {ε α : Type} [DecidableEq ε] [DecidableEq α] : DecidableEq (Except ε α) :=
  fun a b =>
  match a, b with
  | .ok x, .ok y =>
    match decEq x y with
    | isTrue h => isTrue (by rw [h])
    | isFalse h => isFalse (by intro hh; injection hh; contradiction)
  | .error x, .error y =>
    match decEq x y with
    | isTrue h => isTrue (by rw [h])
    | isFalse h => isFalse (by intro hh; injection hh; contradiction)
  | .ok _, .error _ => isFalse (by intro h; exact Except.noConfusion h)
  | .error _, .ok _ => isFalse (by intro h; exact Except.noConfusion h)

/-! ## Concrete inputs used by witnesses and counterexamples -/

/-- A URL whose blob is already cached, for concrete witnesses. -/
def url0 : String := "http://h/p/data.bin"

/-- The cache path of url0. -/
def p0 : String := CACHE_ROOT ++ "/" ++ sha256hex (utf8Encode url0) ++ "-" ++ "data.bin"

/-- A state with the url0 blob cached. -/
def st0 : St := { fs := [(p0, [1, 2, 3])], downloads := 0 }

/-- A network that always fails, to show no request is made on cache hits. -/
def net0 : Net := fun _ => NetResult.httpError

/-- A URL whose transfer fails after two bytes. -/
def url4 : String := "http://host/a/file.bin"

/-- A network where every streaming read fails after two bytes arrived. -/
def net4 : Net := fun _ => NetResult.partialBody [1, 2]

/-- The cache path of url4. -/
def p4 : String := CACHE_ROOT ++ "/" ++ sha256hex (utf8Encode url4) ++ "-" ++ "file.bin"

/-- A toy version library over Nat for the C2 witness: tags "1" and "2" parse,
everything ≥ 1 matches any range. -/
def toyLib : SemverLib Nat :=
  { parse := fun s =>
      match s.toList with
      | ['1'] => some 1
      | ['2'] => some 2
      | _ => none,
    vmatch := fun v _ => decide (1 ≤ v) }

/-- Release v1, not a prerelease. -/
def relA : Release := { tag_name := "v1", prerelease := false }

/-- Release v2, marked prerelease (must be skipped). -/
def relPre : Release := { tag_name := "v2", prerelease := true }

/-- Release v2, not a prerelease (the expected winner). -/
def relB : Release := { tag_name := "v2", prerelease := false }

/-- A concrete matcher for the C3 witness: "*" matches everything, otherwise
exact name match. -/
def fnm0 : String → String → Bool := fun f g => decide (g = "*" ∨ f = g)

/-- A small configuration for the C6 witness. -/
def cfg6 : Json := .obj [("asset", .obj [("repo", .str "o/r")])]

/-- The same configuration with one field changed. -/
def cfg6' : Json := .obj [("asset", .obj [("repo", .str "o/s")])]

/-- A lock payload before stamping. -/
def lockData6 : List (String × Json) := [("assets", .obj [])]

/-- Tarball URL of repo octo/tool at tag v1.0.0. -/
def urlT1 : String := "https://api.github.com/repos/octo/tool/tarball/v1.0.0"

/-- Tarball URL of the same repository at tag v2.0.0. -/
def urlT2 : String := "https://api.github.com/repos/octo/tool/tarball/v2.0.0"

/-- Following the spec's words: the version string is the tag with a single
leading letter v removed (stated only to compare against the source's
lstrip). -/
def spec_stripSingleV (tag : String) : String :=
  match tag.toList with
  | 'v' :: rest => String.mk rest
  | _ => tag

/-- A release tagged vv1.2.3 whose only asset is named tool-1.2.3. -/
def relVV : Release :=
  { tag_name := "vv1.2.3", prerelease := false,
    assets := [{ name := "tool-1.2.3",
                 browser_download_url := "https://example.com/tool-1.2.3" }] }

/-- A one-file extractor for the C10 counterexample: writes the member tool
with mode 0o644 under the destination, as tar's data filter leaves a regular
non-executable member. -/
def extractor10 : Extractor := fun _ dest _ => [(dest ++ "/tool", ([7], 420))]

/-- The archive URL of the C10 scenario. -/
def url10 : String := "https://h/a/b.tar.gz"

/-- The cache path of url10. -/
def p10 : String :=
  CACHE_ROOT ++ "/" ++ sha256hex (utf8Encode url10) ++ "-" ++ "b.tar.gz"

/-- A lock entry requesting both extraction and the executable bit. -/
def asset10 : Asset :=
  { repo := "o/r", download_url := url10, version := "1.0.0",
    destination := "out", checksum := sha256hex [5],
    executable := true, extract := some { globs := ["*"], filetype := some "tar.gz" } }

/-- The same entry without extraction (the copy branch), for the witness. -/
def asset10c : Asset := { asset10 with extract := none }

/-- Machine state with the url10 blob (bytes [5]) already cached, matching
asset10.checksum. -/
def ist10 : InstallSt :=
  { cache := { fs := [(p10, [5])], downloads := 0 }, dest := [] }

/-! ## File-system lemmas -/

theorem fsRead_fsWrite_self (fs : FS) (p : String) (v : List Nat) :
    fsRead (fsWrite fs p v) p = some v := by
  simp [fsRead, fsWrite, List.lookup]

theorem fsRead_fsDelete_self (fs : FS) (p : String) :
    fsRead (fsDelete fs p) p = none := by
  induction fs with
  | nil => rfl
  | cons e t ih =>
    by_cases h : e.1 = p
    · simpa [fsDelete, List.filter_cons, h] using ih
    · simp only [fsDelete, List.filter_cons, decide_eq_true_eq] at *
      rw [if_pos h]
      simp only [fsRead, List.lookup] at *
      rw [beq_false_of_ne (Ne.symm h)]
      exact ih

theorem fsRead_fsDelete_ne (fs : FS) {p q : String} (h : q ≠ p) :
    fsRead (fsDelete fs p) q = fsRead fs q := by
  induction fs with
  | nil => rfl
  | cons e t ih =>
    by_cases he : e.1 = p
    · simp only [fsDelete, List.filter_cons, decide_eq_true_eq] at *
      rw [if_neg (by simp [he])]
      simp only [fsRead, List.lookup]
      rw [beq_false_of_ne (he ▸ h)]
      exact ih
    · simp only [fsDelete, List.filter_cons, decide_eq_true_eq] at *
      rw [if_pos he]
      simp only [fsRead, List.lookup] at *
      cases hbe : q == e.1 with
      | true => rfl
      | false => exact ih

/-- A path never equals itself with ".sha256" appended. -/
theorem ne_append_sha256 (p : String) : p ≠ p ++ ".sha256" := by
  intro h
  have := congrArg String.length h
  simp [String.length_append] at this
  exact absurd this (by decide)

/-! ## C1: fetchAndVerify evicts blob and sidecar on checksum mismatch -/

/-- C1. For every network, start state, URL and expected digest: when the fetch
step succeeds with blob path p holding bytes b (whether freshly downloaded or
already cached — the hypotheses put no constraint on how st1 arose from st,
and the already-cached case is st1 = st), and the SHA-256 of b differs from
the expected digest, download_to_cache_and_verify fails with the hash-mismatch
error carrying the URL, the computed digest and the expected digest, deletes
both the blob and its .sha256 sidecar, and afterwards neither exists on disk. -/
theorem fetchAndVerify_mismatch_evicts (net : Net) (st st1 : St)
    (url expected p : String) (b : List Nat)
    (hfetch : download_to_cache net st url = (.ok p, st1))
    (hblob : fsRead st1.fs p = some b)
    (hmm : calc_checksum b ≠ expected) :
    download_to_cache_and_verify net st url expected =
      (.error (.assetError ("Hash mismatch for URL " ++ url ++ ": computed \x27" ++
          calc_checksum b ++ "\x27, expected \x27" ++ expected ++ "\x27")),
       { st1 with fs := fsDelete (fsDelete st1.fs p) (p ++ ".sha256") }) ∧
    fsRead ((download_to_cache_and_verify net st url expected).2).fs p = none ∧
    fsRead ((download_to_cache_and_verify net st url expected).2).fs
      (p ++ ".sha256") = none := by
  have hmain : download_to_cache_and_verify net st url expected =
      (.error (.assetError ("Hash mismatch for URL " ++ url ++ ": computed \x27" ++
          calc_checksum b ++ "\x27, expected \x27" ++ expected ++ "\x27")),
       { st1 with fs := fsDelete (fsDelete st1.fs p) (p ++ ".sha256") }) := by
    unfold download_to_cache_and_verify
    rw [hfetch]
    simp only [hblob, Option.getD_some]
    rw [if_pos hmm]
  refine ⟨hmain, ?_, ?_⟩
  · rw [hmain]
    show fsRead (fsDelete (fsDelete st1.fs p) (p ++ ".sha256")) p = none
    rw [fsRead_fsDelete_ne _ (ne_append_sha256 p)]
    exact fsRead_fsDelete_self _ _
  · rw [hmain]
    show fsRead (fsDelete (fsDelete st1.fs p) (p ++ ".sha256")) (p ++ ".sha256") = none
    exact fsRead_fsDelete_self _ _

theorem fsRead_fsWrite_ne (fs : FS) (v : List Nat) {p q : String} (h : q ≠ p) :
    fsRead (fsWrite fs p v) q = fsRead fs q := by
  simp only [fsRead, fsWrite, List.lookup]
  rw [beq_false_of_ne h]
  exact fsRead_fsDelete_ne fs h

/-- Witness for C1: at the concrete cached input, after verification against a
wrong digest neither the blob nor the sidecar remains. -/
theorem fetchAndVerify_mismatch_evicts_witness :
    fsRead ((download_to_cache_and_verify net0 st0 url0 "0000").2).fs p0 = none ∧
    fsRead ((download_to_cache_and_verify net0 st0 url0 "0000").2).fs
      (p0 ++ ".sha256") = none := by
  have h := fetchAndVerify_mismatch_evicts net0 st0 st0 url0 "0000" p0 [1, 2, 3]
    (by decide) (by decide) (by decide)
  exact ⟨h.2.1, h.2.2⟩

/-! ## C5: a cached blob is returned unchanged; fetch twice = fetch once -/

/-- C5. (a) When the blob for a URL already exists at its cache path, fetch
returns that path with the state unchanged: no network request (the download
counter is part of the unchanged state) and no re-hash (the file tree is part
of the unchanged state). (b) Consequently any successful fetch is idempotent:
running it again returns the same path and leaves the state fixed, and the
first call either changed nothing (cache hit) or performed exactly one
network read. -/
theorem fetch_cached_noop (net : Net) (st : St) (url p : String) :
    (∀ b, cache_file_path url = .ok p → fsRead st.fs p = some b →
      download_to_cache net st url = (.ok p, st)) ∧
    (∀ st1, download_to_cache net st url = (.ok p, st1) →
      download_to_cache net st1 url = (.ok p, st1) ∧
      (st1 = st ∨ st1.downloads = st.downloads + 1)) := by
  constructor
  · intro b hok hb
    unfold download_to_cache
    rw [hok]
    simp [hb]
  · intro st1 h
    unfold download_to_cache at h
    split at h
    · simp at h
    · rename_i path heq
      by_cases hc : (fsRead st.fs path).isSome
      · rw [if_pos hc] at h
        simp only [Prod.mk.injEq, Except.ok.injEq] at h
        obtain ⟨hp, hst⟩ := h
        subst hp
        subst hst
        unfold download_to_cache
        rw [heq]
        simp [hc]
      · rw [if_neg hc] at h
        cases hnet : net url with
        | httpError => rw [hnet] at h; simp at h
        | partialBody r => rw [hnet] at h; simp at h
        | ok body =>
          rw [hnet] at h
          simp only [Prod.mk.injEq, Except.ok.injEq] at h
          obtain ⟨hp, hst⟩ := h
          subst hp
          subst hst
          have hblob :
              fsRead (fsWrite (fsWrite st.fs path body) (path ++ ".sha256")
                (utf8Encode (calc_checksum
                  ((fsRead (fsWrite st.fs path body) path).getD [])))) path
                = some body := by
            rw [fsRead_fsWrite_ne _ _ (ne_append_sha256 path)]
            exact fsRead_fsWrite_self _ _ _
          refine ⟨?_, Or.inr rfl⟩
          unfold download_to_cache
          rw [heq]
          simp [hblob]

/-- Witness for C5: at the concrete cached input the path returns with the
state unchanged. -/
theorem fetch_cached_noop_witness :
    download_to_cache net0 st0 url0 = (.ok p0, st0) :=
  (fetch_cached_noop net0 st0 url0 p0).1 [1, 2, 3] (by decide) (by decide)

/-! ## C4: a failed streaming download leaves a partial blob behind -/

/-- C4 is violated by the code: at a concrete URL whose transfer fails after
two bytes, download_to_cache raises the transport error yet leaves the
partial two-byte blob at the cache path, and a second run returns that
partial blob as a cache hit — the exists-implies-complete invariant fails.
(raise_for_status does fire before the blob file is opened, so the
HTTP-status half of the claim holds; the streaming half does not.) -/
theorem fetch_partial_blob_persists :
    (download_to_cache net4 ⟨[], 0⟩ url4).1 = .error .transportError ∧
    fsRead ((download_to_cache net4 ⟨[], 0⟩ url4).2).fs p4 = some [1, 2] ∧
    download_to_cache net4 (download_to_cache net4 ⟨[], 0⟩ url4).2 url4 =
      (.ok p4, (download_to_cache net4 ⟨[], 0⟩ url4).2) :=
  ⟨by decide, by decide, by decide⟩

/-! ## C2: the resolver returns the maximal matching release -/

theorem pymax_by_snd_mem {α β : Type} [LinearOrder β] (best : α × β) :
    ∀ l : List (α × β), pymax_by_snd best l ∈ best :: l := by
  intro l
  induction l generalizing best with
  | nil => simp [pymax_by_snd]
  | cons x xs ih =>
    simp only [pymax_by_snd]
    by_cases hb : best.2 < x.2
    · rw [if_pos hb]
      rcases List.mem_cons.mp (ih x) with h1 | h1
      · rw [h1]; simp
      · exact List.mem_cons.mpr (Or.inr (List.mem_cons.mpr (Or.inr h1)))
    · rw [if_neg hb]
      rcases List.mem_cons.mp (ih best) with h1 | h1
      · rw [h1]; simp
      · exact List.mem_cons.mpr (Or.inr (List.mem_cons.mpr (Or.inr h1)))

theorem pymax_by_snd_ge {α β : Type} [LinearOrder β] (best : α × β) :
    ∀ l : List (α × β), ∀ q ∈ best :: l, q.2 ≤ (pymax_by_snd best l).2 := by
  intro l
  induction l generalizing best with
  | nil =>
    intro q hq
    simp only [List.mem_cons, List.not_mem_nil, or_false] at hq
    simp [pymax_by_snd, hq]
  | cons x xs ih =>
    intro q hq
    simp only [pymax_by_snd]
    have hb : best.2 ≤ (if best.2 < x.2 then x else best).2 := by
      split
      · exact le_of_lt (by assumption)
      · exact le_rfl
    have hx : x.2 ≤ (if best.2 < x.2 then x else best).2 := by
      split
      · exact le_rfl
      · exact not_lt.mp (by assumption)
    have hh := ih (if best.2 < x.2 then x else best)
    rcases List.mem_cons.mp hq with h1 | h1
    · rw [h1]
      exact le_trans hb (hh _ (List.mem_cons_self _ _))
    · rcases List.mem_cons.mp h1 with h2 | h2
      · rw [h2]
        exact le_trans hx (hh _ (List.mem_cons_self _ _))
      · exact hh q (List.mem_cons.mpr (Or.inr h2))

theorem matching_releases_mem {V : Type} (lib : SemverLib V)
    (releases : List Release) (range : String) (r : Release) (v : V) :
    (r, v) ∈ matching_releases lib releases range ↔
      r ∈ releases ∧ lib.parse (lstrip_v r.tag_name) = some v ∧
        r.prerelease = false ∧ lib.vmatch v range = true := by
  unfold matching_releases
  rw [List.mem_filterMap]
  constructor
  · rintro ⟨a, ha, hf⟩
    cases hp : lib.parse (lstrip_v a.tag_name) with
    | none => rw [hp] at hf; simp at hf
    | some w =>
      rw [hp] at hf
      by_cases hpre : a.prerelease
      · simp [hpre] at hf
      · by_cases hm : lib.vmatch w range
        · simp only [hpre, if_false, Bool.false_eq_true, hm, not_true, if_neg,
            ite_false] at hf
          simp [hpre, hm] at hf
          obtain ⟨h1, h2⟩ := hf
          subst h1; subst h2
          exact ⟨ha, hp, by simpa using hpre, hm⟩
        · simp [hpre, hm] at hf
  · rintro ⟨hmem, hp, hpre, hm⟩
    refine ⟨r, hmem, ?_⟩
    rw [hp]
    simp [hpre, hm]

/-- C2. The candidate set is exactly the releases whose v-stripped tag parses
as a version, that are not prereleases, and whose version matches the range
(so non-parsing tags and prereleases are skipped silently, not errors); the
resolver fails with the no-matching-release error exactly when that set is
empty; and any returned release belongs to the set and carries a version
greater or equal to every candidate's. -/
theorem resolver_selects_max {V : Type} [LinearOrder V] (lib : SemverLib V)
    (releases : List Release) (repo range : String) :
    (∀ r v, (r, v) ∈ matching_releases lib releases range ↔
      r ∈ releases ∧ lib.parse (lstrip_v r.tag_name) = some v ∧
        r.prerelease = false ∧ lib.vmatch v range = true) ∧
    (get_latest_release lib releases repo range =
        .error (.assetError ("No releases match version requirement " ++ range ++
          " for repo \x27" ++ repo ++ "\x27")) ↔
      matching_releases lib releases range = []) ∧
    (∀ r, get_latest_release lib releases repo range = .ok r →
      ∃ v, (r, v) ∈ matching_releases lib releases range ∧
        ∀ q ∈ matching_releases lib releases range, q.2 ≤ v) := by
  refine ⟨fun r v => matching_releases_mem lib releases range r v, ?_, ?_⟩
  · unfold get_latest_release
    cases hm : matching_releases lib releases range with
    | nil => simp
    | cons m ms => simp
  · intro r h
    unfold get_latest_release at h
    cases hm : matching_releases lib releases range with
    | nil => rw [hm] at h; simp at h
    | cons m ms =>
      rw [hm] at h
      simp only [Except.ok.injEq] at h
      refine ⟨(pymax_by_snd m ms).2, ?_, ?_⟩
      · rw [← h]
        simpa using pymax_by_snd_mem m ms
      · intro q hq
        exact pymax_by_snd_ge m ms q hq

/-- Witness for C2: on a concrete release list the resolver's winner relB is a
candidate whose version dominates all candidates. -/
theorem resolver_selects_max_witness :
    ∃ v, (relB, v) ∈ matching_releases toyLib [relA, relPre, relB] ">=1" ∧
      ∀ q ∈ matching_releases toyLib [relA, relPre, relB] ">=1", q.2 ≤ v :=
  (resolver_selects_max toyLib [relA, relPre, relB] "o/r" ">=1").2.2 relB (by decide)

/-! ## C3: glob filtering yields each member at most once; error iff empty -/

theorem filter_files_go_subset (fnm : String → String → Bool) :
    ∀ globs files, filter_files_go fnm files globs ⊆ files := by
  intro globs
  induction globs with
  | nil => intro files x hx; simp [filter_files_go] at hx
  | cons g gs ih =>
    intro files x hx
    simp only [filter_files_go, List.mem_append] at hx
    rcases hx with h | h
    · exact List.mem_of_mem_filter h
    · exact List.mem_of_mem_filter (ih _ h)

theorem filter_files_go_nodup (fnm : String → String → Bool) :
    ∀ globs files, files.Nodup → (filter_files_go fnm files globs).Nodup := by
  intro globs
  induction globs with
  | nil => intro files h; simp [filter_files_go]
  | cons g gs ih =>
    intro files h
    simp only [filter_files_go]
    rw [List.nodup_append]
    refine ⟨h.filter _, ih _ (h.filter _), ?_⟩
    intro x hx hx2
    have h1 := List.of_mem_filter hx
    have h3 := List.of_mem_filter (filter_files_go_subset fnm gs _ hx2)
    simp only [decide_eq_true_eq] at h1 h3
    exact h3 h1

/-- C3. The members the generator yields contain no duplicate even when several
globs match the same member (the input collection is itself a set); the
no-matches error is raised exactly when the whole yield sequence is empty;
otherwise the yield sequence is returned as is. -/
theorem selectMembers_nodup_error_iff (fnm : String → String → Bool)
    (files globs : List String) :
    (filter_files_go fnm files.dedup globs).Nodup ∧
    ((∃ e, filter_files fnm files globs = .error e) ↔
      filter_files_go fnm files.dedup globs = []) ∧
    (∀ l, filter_files fnm files globs = .ok l →
      l = filter_files_go fnm files.dedup globs ∧ l ≠ []) := by
  refine ⟨filter_files_go_nodup fnm globs files.dedup files.nodup_dedup, ?_, ?_⟩
  · unfold filter_files
    by_cases he : (filter_files_go fnm files.dedup globs).isEmpty
    · rw [if_pos he]
      simp only [List.isEmpty_iff] at he
      exact ⟨fun _ => he, fun _ => ⟨_, rfl⟩⟩
    · rw [if_neg he]
      simp only [List.isEmpty_iff] at he
      constructor
      · rintro ⟨e, hcontra⟩
        exact absurd hcontra (by simp)
      · intro hcontra
        exact absurd hcontra he
  · intro l hl
    unfold filter_files at hl
    by_cases he : (filter_files_go fnm files.dedup globs).isEmpty
    · rw [if_pos he] at hl
      simp at hl
    · rw [if_neg he] at hl
      simp only [List.isEmpty_iff] at he
      simp only [Except.ok.injEq] at hl
      exact ⟨hl.symm, hl ▸ he⟩

/-- Witness for C3: on a duplicated input and overlapping globs the yielded
list is exactly the deduplicated sequence and nonempty. -/
theorem selectMembers_nodup_error_iff_witness :
    ["a", "b"] = filter_files_go fnm0 (["a", "b", "a"].dedup) ["a", "*"] ∧
    (["a", "b"] : List String) ≠ [] :=
  (selectMembers_nodup_error_iff fnm0 ["a", "b", "a"] ["a", "*"]).2.2
    ["a", "b"] (by decide)

/-! ## C6: the lock gate accepts exactly matching fingerprints -/

theorem lookup_objSet_self (k : String) (v : Json) :
    ∀ kvs : List (String × Json), (objSet kvs k v).lookup k = some v := by
  intro kvs
  induction kvs with
  | nil => simp [objSet, List.lookup]
  | cons e t ih =>
    obtain ⟨k1, v1⟩ := e
    unfold objSet at ih ⊢
    by_cases he : k1 = k
    · rw [if_pos (by simp [List.any_cons, he])]
      simp only [List.map_cons, if_pos he]
      simp [List.lookup]
    · have hkk : (k == k1) = false := beq_false_of_ne (fun hh => he hh.symm)
      have hecond : (decide ((k1, v1).1 = k)) = false := by simp [he]
      by_cases ht : (t.any fun x => decide (x.1 = k)) = true
      · have hcond : ((k1, v1) :: t).any (fun x => decide (x.1 = k)) = true := by
          rw [List.any_cons, hecond, Bool.false_or]
          exact ht
        rw [if_pos hcond]
        simp only [List.map_cons, if_neg he]
        rw [if_pos ht] at ih
        simp only [List.lookup, hkk]
        exact ih
      · have hcond : ¬ ((k1, v1) :: t).any (fun x => decide (x.1 = k)) = true := by
          rw [List.any_cons, hecond, Bool.false_or]
          exact ht
        rw [if_neg hcond]
        rw [if_neg ht] at ih
        rw [List.cons_append]
        simp only [List.lookup, hkk]
        exact ih

/-- A freshly written lock stores the writing configuration's fingerprint. -/
theorem lookup_write_lock (config : Json) (lock_data : List (String × Json)) :
    (write_lock config lock_data).lookup "config_checksum" =
      some (.str (config_fingerprint config)) :=
  lookup_objSet_self _ _ lock_data

/-- load_lock on a readable file with the check enabled, as an equation. -/
theorem load_lock_some (config : Json) (lock : List (String × Json)) :
    load_lock config (some lock) true =
      match check_lock_stale config lock with
      | .error e => .error (.assetError ("Could not load lock file"
          ++ " \x27mazette.lock\x27: " ++ errStr e))
      | .ok _ => .ok lock := rfl

/-- check_lock_stale when the stored checksum entry exists, as an equation. -/
theorem check_lock_stale_eq (config : Json) (lock : List (String × Json))
    (s : Json) (hl : lock.lookup "config_checksum" = some s) :
    check_lock_stale config lock =
      if Json.str (config_fingerprint config) ≠ s then
        .error (.assetError ("The asset list and the mazette.lock file are not in"
          ++ " sync. This can be fixed by running the \x27lock\x27 command."))
      else .ok () := by
  unfold check_lock_stale
  rw [hl]

/-- C6. Loading the lock with the freshness check succeeds exactly when the
stored fingerprint equals the current declarations' fingerprint: a lock just
written from configuration config loads under config; it fails with the
wrapped stale-lock error under any configuration with a different
fingerprint; and in general, for a lock storing fingerprint h, the checked
load succeeds iff h is the current fingerprint. -/
theorem lock_fingerprint_gate (config D' : Json)
    (lock_data lock : List (String × Json)) :
    (load_lock config (some (write_lock config lock_data)) true =
      .ok (write_lock config lock_data)) ∧
    (config_fingerprint D' ≠ config_fingerprint config →
      load_lock D' (some (write_lock config lock_data)) true =
        .error (.assetError ("Could not load lock file" ++ " \x27mazette.lock\x27: " ++
          ("The asset list and the mazette.lock file are not in"
            ++ " sync. This can be fixed by running the \x27lock\x27 command.")))) ∧
    (∀ h, lock.lookup "config_checksum" = some (.str h) →
      (load_lock config (some lock) true = .ok lock ↔
        h = config_fingerprint config)) := by
  refine ⟨?_, ?_, ?_⟩
  · rw [load_lock_some, check_lock_stale_eq config _ _
      (lookup_write_lock config lock_data)]
    rw [if_neg (by simp)]
  · intro hne
    rw [load_lock_some, check_lock_stale_eq D' _ _
      (lookup_write_lock config lock_data)]
    rw [if_pos (by simp only [ne_eq, Json.str.injEq]; exact fun hh => hne hh)]
    rfl
  · intro h hlk
    rw [load_lock_some, check_lock_stale_eq config _ _ hlk]
    by_cases heq : h = config_fingerprint config
    · rw [if_neg (by simp [heq])]
      simp [heq]
    · rw [if_pos (by intro hh; injection hh with hh2; exact heq hh2.symm)]
      constructor
      · intro hcontra
        exact absurd hcontra (by simp)
      · intro hcontra
        exact absurd hcontra heq

/-- Witness for C6: the freshly written lock loads under cfg6 and is rejected
as stale under the mutated cfg6'. -/
theorem lock_fingerprint_gate_witness :
    load_lock cfg6 (some (write_lock cfg6 lockData6)) true =
      .ok (write_lock cfg6 lockData6) ∧
    load_lock cfg6' (some (write_lock cfg6 lockData6)) true =
      .error (.assetError ("Could not load lock file" ++ " \x27mazette.lock\x27: " ++
        ("The asset list and the mazette.lock file are not in"
          ++ " sync. This can be fixed by running the \x27lock\x27 command."))) :=
  ⟨(lock_fingerprint_gate cfg6 cfg6' lockData6 []).1,
   (lock_fingerprint_gate cfg6 cfg6' lockData6 []).2.1 (by decide)⟩

/-! ## C7: the fingerprint depends on declaration key order (claim refuted) -/

/-- Counterexample to C7: two configurations holding exactly the same entries
in different key order (a permutation) receive different fingerprints,
because json.dumps runs without sort_keys and serializes entries in
insertion order. -/
theorem config_fingerprint_order_counterexample :
    [("a", Json.num 1), ("b", Json.num 2)].Perm
      [("b", Json.num 2), ("a", Json.num 1)] ∧
    config_fingerprint (.obj [("a", .num 1), ("b", .num 2)]) ≠
      config_fingerprint (.obj [("b", .num 2), ("a", .num 1)]) :=
  ⟨List.Perm.swap _ _ _, by decide⟩

/-- C7 [amended]. The fingerprint is a pure function of the declarations'
serialization: configurations with the same json.dumps output — in
particular, the same entries in the same order — receive the same
fingerprint. (By the counterexample, permuting keys can change it.) -/
theorem config_fingerprint_of_dumps (c1 c2 : Json) (h : dumps c1 = dumps c2) :
    config_fingerprint c1 = config_fingerprint c2 := by
  unfold config_fingerprint
  rw [h]

/-- Witness for the amended C7 at a concrete input. -/
theorem config_fingerprint_of_dumps_witness :
    config_fingerprint (.obj [("a", .num 1)]) =
      config_fingerprint (.obj [("a", .num 1)]) :=
  config_fingerprint_of_dumps _ _ rfl

/-! ## C8: tarball URLs of one repo do not share one cache slot (refuted) -/

/-- Counterexample to C8: two tarball URLs of the same repository map to
different cache paths, because the path begins with the SHA-256 of the full
URL (the source comments call the per-URL hash out as intentional, so that
versions of one asset do not clash); only the human-readable suffix collapses
to repo-tarball. -/
theorem cache_path_tarball_counterexample :
    (cache_file_path urlT1).toOption ≠ (cache_file_path urlT2).toOption ∧
    cache_file_path urlT1 = .ok (CACHE_ROOT ++ "/" ++ sha256hex (utf8Encode urlT1)
      ++ "-" ++ "tool-tarball") ∧
    cache_file_path urlT2 = .ok (CACHE_ROOT ++ "/" ++ sha256hex (utf8Encode urlT2)
      ++ "-" ++ "tool-tarball") :=
  ⟨by decide, by decide, by decide⟩

/-- C8 [amended]. A hosting-generated tarball/zipball URL maps to the cache
path built from the SHA-256 of the full URL and the repo-tarball
(resp. repo-zipball) suffix: the suffix is one slot name per repository and
archive kind, but the hash prefix still depends on the whole URL, so URLs
differing in the tag occupy distinct cache slots. -/
theorem cache_path_archive_slot (url repo tag kind : String) (rest : List String)
    (hkind : kind = "tarball" ∨ kind = "zipball")
    (hsplit : (pySplit url '/').reverse = tag :: kind :: repo :: rest) :
    cache_file_path url = .ok (CACHE_ROOT ++ "/" ++ sha256hex (utf8Encode url)
      ++ "-" ++ (repo ++ "-" ++ kind)) := by
  unfold cache_file_path
  have hlen : (pySplit url '/').length = rest.length + 3 := by
    have h1 := congrArg List.length hsplit
    simp only [List.length_reverse, List.length_cons] at h1
    omega
  rw [if_neg (by omega)]
  simp only [hsplit, List.getD_cons_zero, List.getD_cons_succ]
  rcases hkind with hk | hk
  · rw [if_pos (Or.inr hk), hk]
  · rw [if_pos (Or.inl hk), hk]

/-- Witness for the amended C8 at the concrete v1.0.0 tarball URL. -/
theorem cache_path_archive_slot_witness :
    cache_file_path urlT1 = .ok (CACHE_ROOT ++ "/" ++ sha256hex (utf8Encode urlT1)
      ++ "-" ++ ("tool" ++ "-" ++ "tarball")) :=
  cache_path_archive_slot urlT1 "tool" "v1.0.0" "tarball"
    ["octo", "repos", "api.github.com", "", "https:"] (Or.inl rfl) (by decide)

/-! ## C9: the version strips every leading v, not a single one (refuted) -/

/-- Counterexample to C9: on the tag vv1.2.3 the code removes both leading v
characters, not one: the substituted version is 1.2.3 and the asset named
tool-1.2.3 is found, whereas the claimed single-character strip would give
v1.2.3 and look for tool-v1.2.3. -/
theorem lstrip_v_counterexample :
    lstrip_v "vv1.2.3" = "1.2.3" ∧
    spec_stripSingleV "vv1.2.3" = "v1.2.3" ∧
    lstrip_v "vv1.2.3" ≠ spec_stripSingleV "vv1.2.3" ∧
    get_download_url relVV "tool-\x7bversion\x7d" =
      .ok "https://example.com/tool-1.2.3" :=
  ⟨by decide, by decide, by decide, by decide⟩

theorem dropWhile_v_decomp (l : List Char) :
    (∃ k, l = List.replicate k 'v' ++ l.dropWhile (fun c => c = 'v')) ∧
    (l.dropWhile (fun c => c = 'v')).head? ≠ some 'v' := by
  induction l with
  | nil => exact ⟨⟨0, rfl⟩, by simp⟩
  | cons c cs ih =>
    by_cases hc : c = 'v'
    · obtain ⟨⟨k, hk⟩, hh⟩ := ih
      have hd : (c :: cs).dropWhile (fun x => decide (x = 'v')) =
          cs.dropWhile (fun x => decide (x = 'v')) := by
        simp [List.dropWhile_cons, hc]
      refine ⟨⟨k + 1, ?_⟩, ?_⟩
      · rw [hd, List.replicate_succ, hc]
        simpa using hk
      · rw [hd]
        exact hh
    · have hd : (c :: cs).dropWhile (fun x => decide (x = 'v')) = c :: cs := by
        simp [List.dropWhile_cons, hc]
      refine ⟨⟨0, by simp [hd]⟩, ?_⟩
      rw [hd]
      simpa using hc

/-- C9 [amended]. The version string used for parsing, matching and
placeholder substitution is the tag with every leading v character removed:
the tag splits as some run of v characters followed by the version string,
the version string never begins with v, and a tag not beginning with v is
used unchanged. -/
theorem lstrip_v_strips_all (tag : String) :
    (∃ k, tag.toList = List.replicate k 'v' ++ (lstrip_v tag).toList) ∧
    (lstrip_v tag).toList.head? ≠ some 'v' ∧
    (tag.toList.head? ≠ some 'v' → lstrip_v tag = tag) := by
  obtain ⟨data⟩ := tag
  have h := dropWhile_v_decomp data
  refine ⟨?_, ?_, ?_⟩
  · obtain ⟨⟨k, hk⟩, _⟩ := h
    exact ⟨k, hk⟩
  · exact h.2
  · intro hh
    cases data with
    | nil => rfl
    | cons c cs =>
      have hc : ¬ c = 'v' := by
        intro hcc
        exact hh (by rw [hcc]; rfl)
      show String.mk ((c :: cs).dropWhile (fun x => decide (x = 'v'))) =
        String.mk (c :: cs)
      congr 1
      simp [List.dropWhile_cons, hc]

/-- Witness for the amended C9: a tag without a leading v is unchanged. -/
theorem lstrip_v_strips_all_witness : lstrip_v "1.2.3" = "1.2.3" :=
  (lstrip_v_strips_all "1.2.3").2.2 (by decide)

/-! ## C10: the executable bit is skipped on the extract branch (refuted) -/

/-- Counterexample to C10: installing asset10 (executable set, extraction
requested) succeeds yet leaves the extracted file with its archive mode
0o644 — none of the 0o111 bits is added, because install_asset consults the
executable flag only on the copy branch. -/
theorem install_extract_skips_exec_counterexample :
    asset10.executable = true ∧
    (install_asset extractor10 net0 ist10 "linux/amd64"
      [("linux/amd64", asset10)]).1 = .ok () ∧
    destLookup (install_asset extractor10 net0 ist10 "linux/amd64"
      [("linux/amd64", asset10)]).2.dest ("out" ++ "/tool") = some ([7], 420) ∧
    420 &&& 73 = 0 :=
  ⟨rfl, by decide, by decide, by decide⟩

theorem destLookup_destWrite_self (fs : DestFS) (p : String) (v : List Nat × Nat) :
    destLookup (destWrite fs p v) p = some v := by
  simp [destLookup, destWrite, List.lookup]

theorem underDir_self_false (p : String) : underDir p p = false := by
  simp only [underDir, decide_eq_false_iff_not]
  intro hcontra
  have h1 := congrArg List.length hcontra
  simp [List.length_take] at h1

theorem isDir_filter_false (fs : DestFS) (d : String)
    (q : String × (List Nat × Nat) → Bool) (h : isDir fs d = false) :
    isDir (fs.filter q) d = false := by
  simp only [isDir, List.any_eq_false] at h ⊢
  intro x hx
  exact h x (List.mem_of_mem_filter hx)

theorem isDir_removeSubtree_false (fs : DestFS) (d : String) :
    isDir (fs.filter (fun e => ¬ underDir d e.1)) d = false := by
  simp only [isDir, List.any_eq_false]
  intro x hx
  have hq := List.of_mem_filter hx
  simp only [decide_eq_true_eq] at hq
  exact hq

theorem isDir_dest0_false (fs : DestFS) (d : String) :
    isDir (if destExists fs d then removeDest fs d else fs) d = false := by
  by_cases hex : destExists fs d
  · rw [if_pos hex]
    unfold removeDest
    by_cases hdir : isDir fs d
    · rw [if_pos hdir]
      exact isDir_removeSubtree_false fs d
    · rw [if_neg hdir]
      exact isDir_filter_false fs d _ (by revert hdir; cases isDir fs d <;> simp)
  · rw [if_neg hex]
    unfold destExists at hex
    revert hex
    cases h1 : (destLookup fs d).isSome <;> cases h2 : isDir fs d <;> simp [h1, h2]

theorem isDir_destWrite_false (fs : DestFS) (d : String) (v : List Nat × Nat)
    (h : isDir fs d = false) : isDir (destWrite fs d v) d = false := by
  simp only [destWrite, isDir, List.any_cons, underDir_self_false, Bool.false_or]
  have h2 := isDir_filter_false fs d (fun e => decide (e.1 ≠ d)) h
  simpa [isDir] using h2

theorem chmod_exec_file (fs : DestFS) (d : String) (b : List Nat) (m : Nat)
    (hdir : isDir fs d = false) (hlk : destLookup fs d = some (b, m)) :
    chmod_exec fs d = destWrite fs d (b, m ||| 73) := by
  unfold chmod_exec
  rw [if_neg (by simp [hdir]), hlk]

/-- C10 [amended]. For a lock entry whose executable flag is set and whose
extraction is not requested, a successful install writes the blob copy at the
destination and grants all three execute bits: the final mode is the copied
mode with 0o111 added. (On the extract branch the flag is ignored, as the
counterexample shows.) -/
theorem install_copy_sets_exec (extractor : Extractor) (net : Net)
    (ist : InstallSt) (platform : String) (asset_dict : List (String × Asset))
    (asset : Asset) (st1 : St) (cached : String)
    (hchoose : chooseEntry asset_dict platform = some asset)
    (hextract : asset.extract = none)
    (hexec : asset.executable = true)
    (hverify : download_to_cache_and_verify net ist.cache asset.download_url
      asset.checksum = (.ok cached, st1)) :
    (install_asset extractor net ist platform asset_dict).1 = .ok () ∧
    destLookup (install_asset extractor net ist platform asset_dict).2.dest
      asset.destination =
      some ((fsRead st1.fs cached).getD [], blobMode ||| 73) ∧
    (blobMode ||| 73) &&& 73 = 73 := by
  have hinstall : install_asset extractor net ist platform asset_dict =
      (.ok (), ⟨st1, chmod_exec (destWrite (if destExists ist.dest asset.destination
            then removeDest ist.dest asset.destination else ist.dest)
          asset.destination ((fsRead st1.fs cached).getD [], blobMode))
          asset.destination⟩) := by
    simp [install_asset, hchoose, hverify, hextract, hexec]
  refine ⟨by rw [hinstall], ?_, by decide⟩
  rw [hinstall]
  rw [chmod_exec_file _ _ ((fsRead st1.fs cached).getD []) blobMode
    (isDir_destWrite_false _ _ _ (isDir_dest0_false _ _))
    (destLookup_destWrite_self _ _ _)]
  exact destLookup_destWrite_self _ _ _

/-- Witness for the amended C10: a concrete copy-branch install leaves the
destination file with the execute bits added. -/
theorem install_copy_sets_exec_witness :
    destLookup (install_asset extractor10 net0 ist10 "linux/amd64"
      [("linux/amd64", asset10c)]).2.dest asset10c.destination =
      some ((fsRead ist10.cache.fs p10).getD [], blobMode ||| 73) :=
  (install_copy_sets_exec extractor10 net0 ist10 "linux/amd64"
    [("linux/amd64", asset10c)] asset10c ist10.cache p10
    (by decide) rfl rfl (by decide)).2.1

end Mazette
